import Mathlib

/-!
Verification of the ComplianceVault scoring and BIA-tiering engine.

Shallow embedding of the compliance backend's pure computational core:
  * `calculate_score` — weighted-credit compliance score (app/routes/dashboard.py)
  * `calculate_criticality` — BIA process criticality (app/routes/bia.py)
  * `calculate_security_level` — asset C/I/A classifier (app/routes/bia.py)
  * dashboard aggregation (overall tally, per-domain tally, BIA tier resolution)
  * public platform statistics (average score, additional-control adoption)
  * `update_evaluation`'s applicability inference (app/routes/evaluations.py)

Machine floats in the source only ever hold dyadic rationals produced from
small integers (halves, quarters, 1.25 scalings), so the embedding uses `ℚ`
exactly. Python's `round(x, 1)` is modelled as round-half-to-even at one
decimal place, `int(x)` as truncation toward zero.
-/

namespace ComplianceVault

/-- Round-half-to-even of a rational to an integer, the tie-breaking rule of
Python 3's builtin `round`. -/
def roundHalfEven (q : ℚ) : ℤ :=
  if q - ⌊q⌋ < 1/2 then ⌊q⌋
  else if 1/2 < q - ⌊q⌋ then ⌊q⌋ + 1
  else if ⌊q⌋ % 2 = 0 then ⌊q⌋ else ⌊q⌋ + 1

/-- Python's `round(x, 1)`: round-half-to-even at one decimal place. -/
def round1 (q : ℚ) : ℚ := (roundHalfEven (10 * q) : ℚ) / 10

/-- Python's `int(x)`: truncation toward zero. -/
def truncQ (q : ℚ) : ℤ := if q < 0 then ⌈q⌉ else ⌊q⌋

/-- Status enum `EvaluationStatus` from app/models.py. -/
inductive EvaluationStatus where
  | not_evaluated
  | fully_applied
  | partially_applied
  | low_applied
  | not_applied
deriving DecidableEq, Repr

/-- The fields of a catalog `Control` consumed by the aggregation code
(app/models.py): integer id, domain grouping key, baseline flag. -/
structure Control where
  id : ℕ
  domain_code : String
  is_baseline : Bool
deriving DecidableEq, Repr

/-- The fields of an `Evaluation` row consumed by the aggregation code
(app/models.py): control reference, status, nullable applicability override,
attached evidence (only its non-emptiness matters) and free-text feedback. -/
structure Evaluation where
  control_id : ℕ
  status : EvaluationStatus
  is_applicable : Option Bool
  evidence_count : ℕ := 0
  feedback : Option String := none
deriving DecidableEq, Repr

/-- Function `calculate_score` from app/routes/dashboard.py: weighted credits
100% / 50% / 25% for fully / partially / low applied, `0.0` when the
denominator is zero.  (`part` stands for the source's `partial` argument.) -/
def calculate_score (fully part low total : ℕ) : ℚ :=
  if total = 0 then 0
  else round1 (((fully : ℚ) + (1/2 : ℚ) * part + (1/4 : ℚ) * low) / total * 100)

/-- Function `get_status_color` from app/routes/dashboard.py. -/
def get_status_color (score : ℚ) : String :=
  if 80 ≤ score then "green"
  else if 50 ≤ score then "amber"
  else "red"

/-- Impact-rating fields of a `BIAProcess` row (app/models.py), together with
its owned assets (`InformationAsset.process_id` is a non-nullable foreign key
with delete-orphan cascade, so every asset of an organization lives inside
exactly one of its processes). -/
structure InformationAsset where
  c_rating : ℕ
  i_rating : ℕ
  a_rating : ℕ
  security_level : String
deriving DecidableEq, Repr

structure BIAProcess where
  impact_reputation : ℕ
  impact_external : ℕ
  impact_internal : ℕ
  impact_legal : ℕ
  impact_economic : ℕ
  assets : List InformationAsset := []
deriving DecidableEq, Repr

/-- Weight fields of an `OrganizationSettings` row (app/models.py). -/
structure OrganizationSettings where
  weight_reputation : ℕ
  weight_external : ℕ
  weight_internal : ℕ
  weight_legal : ℕ
  weight_economic : ℕ
deriving DecidableEq, Repr

/-- Function `calculate_criticality` from app/routes/bia.py:
`int(min(1.25 * Σ impact_i * weight_i, 100))`. -/
def calculate_criticality (process : BIAProcess) (settings : OrganizationSettings) : ℤ :=
  let score : ℚ := (5/4 : ℚ) *
    ((process.impact_reputation * settings.weight_reputation +
      process.impact_external * settings.weight_external +
      process.impact_internal * settings.weight_internal +
      process.impact_legal * settings.weight_legal +
      process.impact_economic * settings.weight_economic : ℕ) : ℚ)
  truncQ (min score 100)

/-- Function `calculate_security_level` from app/routes/bia.py: the maximum of the
C/I/A ratings determines the level. -/
def calculate_security_level (asset : InformationAsset) : String :=
  let max_rating := max asset.c_rating (max asset.i_rating asset.a_rating)
  if 3 ≤ max_rating then "High"
  else if max_rating = 2 then "Medium"
  else "Low"

/-- The implicit-applicability condition inlined twice in
`get_dashboard_overview` (app/routes/dashboard.py): the evaluation's
`is_applicable` flag is truthy, or its status is one of the applied statuses
("retroactive fix").  `None` and `False` are both falsy in Python. -/
def implicitlyApplicable (e : Evaluation) : Bool :=
  (e.is_applicable == some true) ||
    (e.status == .fully_applied || e.status == .partially_applied || e.status == .low_applied)

/-- Accumulator of the first (overall) statistics loop of
`get_dashboard_overview` (app/routes/dashboard.py, lines 89–154). -/
structure OverallStats where
  fully_applied : ℕ := 0
  partially_applied : ℕ := 0
  low_applied : ℕ := 0
  not_applied : ℕ := 0
  evaluated : ℕ := 0
  baseline_fully : ℕ := 0
  baseline_part : ℕ := 0
  baseline_low : ℕ := 0
  additional_applicable : ℕ := 0
  additional_fully : ℕ := 0
  additional_part : ℕ := 0
  additional_low : ℕ := 0
  applicable_count : ℕ := 0
  controls_with_evidence : ℕ := 0
deriving DecidableEq, Repr

/-- One iteration of the overall statistics loop: controls with no
evaluation or a `not_evaluated` status are skipped (`continue`). -/
def overallStep (m : ℕ → Option Evaluation) (s : OverallStats) (c : Control) : OverallStats :=
  match m c.id with
  | none => s
  | some e =>
    if e.status = .not_evaluated then s
    else
      let s1 := { s with
        evaluated := s.evaluated + 1,
        controls_with_evidence :=
          s.controls_with_evidence + (if 0 < e.evidence_count then 1 else 0) }
      let s2 :=
        if e.status = .fully_applied then { s1 with fully_applied := s1.fully_applied + 1 }
        else if e.status = .partially_applied then
          { s1 with partially_applied := s1.partially_applied + 1 }
        else if e.status = .low_applied then { s1 with low_applied := s1.low_applied + 1 }
        else if e.status = .not_applied then { s1 with not_applied := s1.not_applied + 1 }
        else s1
      if c.is_baseline then
        if e.status = .fully_applied then { s2 with baseline_fully := s2.baseline_fully + 1 }
        else if e.status = .partially_applied then
          { s2 with baseline_part := s2.baseline_part + 1 }
        else if e.status = .low_applied then { s2 with baseline_low := s2.baseline_low + 1 }
        else s2
      else
        if implicitlyApplicable e then
          let s3 := { s2 with
            applicable_count := s2.applicable_count + 1,
            additional_applicable := s2.additional_applicable + 1 }
          if e.status = .fully_applied then
            { s3 with additional_fully := s3.additional_fully + 1 }
          else if e.status = .partially_applied then
            { s3 with additional_part := s3.additional_part + 1 }
          else if e.status = .low_applied then
            { s3 with additional_low := s3.additional_low + 1 }
          else s3
        else s2

/-- The overall statistics loop of `get_dashboard_overview`:
`applicable_count` starts at the baseline-control count. -/
def overallStats (controls : List Control) (m : ℕ → Option Evaluation) : OverallStats :=
  controls.foldl (overallStep m)
    { applicable_count := (controls.filter (·.is_baseline)).length }

/-- Accumulator of the per-domain loop of `get_dashboard_overview`
(app/routes/dashboard.py, lines 157–222); `part` fields stand for the
source's `partial` keys. -/
structure DomainData where
  total : ℕ := 0
  baseline : ℕ := 0
  baseline_fully : ℕ := 0
  baseline_part : ℕ := 0
  baseline_low : ℕ := 0
  applicable : ℕ := 0
  additional_applicable : ℕ := 0
  additional_fully : ℕ := 0
  additional_part : ℕ := 0
  additional_low : ℕ := 0
  fully : ℕ := 0
  part : ℕ := 0
  low : ℕ := 0
  notApplied : ℕ := 0
  notEvaluated : ℕ := 0
deriving DecidableEq, Repr

/-- One iteration of the per-domain loop, for a control of the domain under
consideration. -/
def domainStep (m : ℕ → Option Evaluation) (d : DomainData) (c : Control) : DomainData :=
  let d0 := { d with total := d.total + 1 }
  let d1 :=
    if c.is_baseline then
      let db := { d0 with baseline := d0.baseline + 1, applicable := d0.applicable + 1 }
      match m c.id with
      | some e =>
        if e.status = .fully_applied then { db with baseline_fully := db.baseline_fully + 1 }
        else if e.status = .partially_applied then
          { db with baseline_part := db.baseline_part + 1 }
        else if e.status = .low_applied then { db with baseline_low := db.baseline_low + 1 }
        else db
      | none => db
    else
      match m c.id with
      | some e =>
        if implicitlyApplicable e then
          let da := { d0 with
            additional_applicable := d0.additional_applicable + 1,
            applicable := d0.applicable + 1 }
          if e.status = .fully_applied then
            { da with additional_fully := da.additional_fully + 1 }
          else if e.status = .partially_applied then
            { da with additional_part := da.additional_part + 1 }
          else if e.status = .low_applied then
            { da with additional_low := da.additional_low + 1 }
          else da
        else d0
      | none => d0
  match m c.id with
  | none => { d1 with notEvaluated := d1.notEvaluated + 1 }
  | some e =>
    if e.status = .not_evaluated then { d1 with notEvaluated := d1.notEvaluated + 1 }
    else if e.status = .fully_applied then { d1 with fully := d1.fully + 1 }
    else if e.status = .partially_applied then { d1 with part := d1.part + 1 }
    else if e.status = .low_applied then { d1 with low := d1.low + 1 }
    else if e.status = .not_applied then { d1 with notApplied := d1.notApplied + 1 }
    else d1

/-- The `domain_data[dc]` record after the per-domain loop: the dictionary
entry for `dc` is touched exactly by the controls whose `domain_code` is
`dc`, in catalog order. -/
def domainData (controls : List Control) (m : ℕ → Option Evaluation) (dc : String) :
    DomainData :=
  (controls.filter (fun c => c.domain_code = dc)).foldl (domainStep m) {}

/-- The domain score computed at app/routes/dashboard.py lines 225–230:
`effective_total = baseline + max(additional_applicable, multiplier)`. -/
def domainScore (controls : List Control) (m : ℕ → Option Evaluation)
    (additional_multiplier : ℕ) (dc : String) : ℚ :=
  let data := domainData controls m dc
  let additional_target_for_domain := max data.additional_applicable additional_multiplier
  let effective_total := data.baseline + additional_target_for_domain
  calculate_score data.fully data.part data.low effective_total

/-- The number of distinct domain codes in the catalog
(`db.query(Control.domain_code).distinct().count()`). -/
def domainCount (controls : List Control) : ℕ :=
  (controls.map (·.domain_code)).dedup.length

/-- The overall score computed at app/routes/dashboard.py lines 263–269:
`overall_effective_total = baseline_count + max(additional_applicable,
domain_count * additional_multiplier)`. -/
def overallScore (controls : List Control) (m : ℕ → Option Evaluation)
    (additional_multiplier : ℕ) : ℚ :=
  let baseline_count := (controls.filter (·.is_baseline)).length
  let additional_req_target := domainCount controls * additional_multiplier
  let s := overallStats controls m
  let overall_effective_total :=
    baseline_count + max s.additional_applicable additional_req_target
  calculate_score s.fully_applied s.partially_applied s.low_applied overall_effective_total

/-- All information assets of an organization: `InformationAsset.process_id`
is a non-nullable foreign key into `bia_processes` with delete-orphan
cascade, so the organization's asset rows are exactly the assets of its
processes. -/
def orgAssets (processes : List BIAProcess) : List InformationAsset :=
  processes.flatMap (·.assets)

/-- BIA tier resolution as performed at app/routes/dashboard.py lines 42–72
and app/routes/bia.py `get_compliance_level`: existence queries on the
persisted `security_level` column, `is_assessed` from the process count.
Returns (level, additional multiplier, is_assessed). -/
def resolveBia (processes : List BIAProcess) : String × ℕ × Bool :=
  let assets := orgAssets processes
  let has_high := assets.any (fun a => a.security_level == "High")
  let has_medium := assets.any (fun a => a.security_level == "Medium")
  let is_assessed := decide (0 < processes.length)
  if has_high then ("High", 2, is_assessed)
  else if has_medium then ("Medium", 1, is_assessed)
  else ("Low", 0, is_assessed)

/-- Per-organization score of `get_public_stats`
(app/routes/dashboard.py lines 414–418): status counts over the
organization's evaluation rows, denominator `len(evaluations)`. -/
def orgScore (evaluations : List Evaluation) : ℚ :=
  calculate_score
    (evaluations.countP (fun e => e.status == .fully_applied))
    (evaluations.countP (fun e => e.status == .partially_applied))
    (evaluations.countP (fun e => e.status == .low_applied))
    evaluations.length

/-- The `total_score` accumulated by the organization loop of
`get_public_stats`: organizations with no evaluations are skipped
(`continue`). -/
def publicTotalScore (orgs : List (List Evaluation)) : ℚ :=
  orgs.foldl (fun acc evaluations =>
    if evaluations = [] then acc else acc + orgScore evaluations) 0

/-- The `average_compliance_score` field of the public statistics response:
`total_score / total_orgs` rounded to one decimal, with an all-zero
short-circuit when there are no organizations at all
(app/routes/dashboard.py lines 361–370 and 444, 468). -/
def average_compliance_score (orgs : List (List Evaluation)) : ℚ :=
  if orgs.length = 0 then 0
  else round1 (publicTotalScore orgs / (orgs.length : ℚ))

/-- The `has_additional` test of `get_public_stats`
(app/routes/dashboard.py lines 406–412): some evaluation row with a truthy
`is_applicable` flag on a control outside the baseline id list. -/
def has_additional (baseline_ids : List ℕ) (evaluations : List Evaluation) : Bool :=
  evaluations.any (fun e =>
    (e.is_applicable == some true) && !(baseline_ids.contains e.control_id))

/-- The `organizations_with_additional_controls` counter of
`get_public_stats`: organizations with no evaluations are skipped, the rest
are tested with `has_additional`. -/
def additional_control_orgs (controls : List Control) (orgs : List (List Evaluation)) : ℕ :=
  let baseline_ids := (controls.filter (·.is_baseline)).map (·.id)
  orgs.foldl (fun acc evaluations =>
    if evaluations = [] then acc
    else if has_additional baseline_ids evaluations then acc + 1 else acc) 0

/-- The request body of `update_evaluation` (`EvaluationUpdate` in
app/schemas.py): required status, optional feedback and applicability. -/
structure EvaluationUpdate where
  status : EvaluationStatus
  feedback : Option String := none
  is_applicable : Option Bool := none
deriving DecidableEq, Repr

/-- The evaluation row persisted by `update_evaluation`
(app/routes/evaluations.py lines 118–148): get-or-create the row (model
defaults: `status = not_evaluated`, `is_applicable = None`), overwrite
status and feedback, then apply the applicability inference — an explicit
flag always wins; otherwise, for non-baseline controls only, infer `False`
for `not_evaluated` and `True` for every other status. -/
def update_evaluation (control : Control) (existing : Option Evaluation)
    (update_data : EvaluationUpdate) : Evaluation :=
  let evaluation :=
    match existing with
    | some e => e
    | none =>
      { control_id := control.id, status := .not_evaluated, is_applicable := none }
  let evaluation :=
    { evaluation with status := update_data.status, feedback := update_data.feedback }
  match update_data.is_applicable with
  | some b => { evaluation with is_applicable := some b }
  | none =>
    if !control.is_baseline then
      if update_data.status = .not_evaluated then
        { evaluation with is_applicable := some false }
      else
        { evaluation with is_applicable := some true }
    else evaluation

/-- Modelled from the spec: the score formula of section 4.4,
`round((fully + 0.5*partial + 0.25*low) / total * 100, 1)`, stated for a
positive `total` (refinement comparison against `calculate_score`). -/
def spec_score_formula (fully part low total : ℕ) : ℚ :=
  round1 (((fully : ℚ) + 0.5 * (part : ℚ) + 0.25 * (low : ℚ)) / (total : ℚ) * 100)

/-- Modelled from the spec: section 4.2's criticality contract —
`1.25 * Σ(impact_i * weight_i)`, floor-truncated and clamped to [0, 100]
(refinement comparison against `calculate_criticality`). -/
def spec_criticality (process : BIAProcess) (settings : OrganizationSettings) : ℤ :=
  max 0 (min 100
    ⌊(1.25 : ℚ) * ((process.impact_reputation * settings.weight_reputation +
      process.impact_external * settings.weight_external +
      process.impact_internal * settings.weight_internal +
      process.impact_legal * settings.weight_legal +
      process.impact_economic * settings.weight_economic : ℕ) : ℚ)⌋)

/-- Modelled from the spec: section 4.5's platform average — the simple mean
of per-organization scores over exactly the organizations that have at least
one evaluation (refinement comparison against `average_compliance_score`). -/
def spec_mean_score (orgs : List (List Evaluation)) : ℚ :=
  let scored := orgs.filter (fun evaluations => !evaluations.isEmpty)
  if scored.length = 0 then 0
  else (scored.map orgScore).sum / (scored.length : ℚ)

/-- Modelled from the spec: the count of organizations with at least one
applicable additional control, applicability per the spec's rule
`is_applicable = true OR status ∈ {fully, partially, low}_applied`
(refinement comparison against `additional_control_orgs`). -/
def spec_additional_orgs (controls : List Control) (orgs : List (List Evaluation)) : ℕ :=
  let baseline_ids := (controls.filter (·.is_baseline)).map (·.id)
  orgs.countP (fun evaluations => evaluations.any (fun e =>
    implicitlyApplicable e && !(baseline_ids.contains e.control_id)))

section RoundingLemmas

theorem roundHalfEven_intCast (n : ℤ) : roundHalfEven (n : ℚ) = n := by
  unfold roundHalfEven
  rw [Int.floor_intCast]
  norm_num

theorem roundHalfEven_le {q : ℚ} {n : ℤ} (h : q ≤ (n : ℚ)) : roundHalfEven q ≤ n := by
  have hf : ⌊q⌋ ≤ n := by
    have := Int.floor_le_floor h
    rwa [Int.floor_intCast] at this
  by_cases h1 : q - ⌊q⌋ < 1/2
  · simp only [roundHalfEven, if_pos h1]
    exact hf
  · have hq : (⌊q⌋ : ℚ) + 1/2 ≤ q := by
      have := not_lt.mp h1
      linarith
    have hlt : (⌊q⌋ : ℚ) < (n : ℚ) := by linarith
    have hf1 : ⌊q⌋ + 1 ≤ n := by
      have : ⌊q⌋ < n := by exact_mod_cast hlt
      omega
    simp only [roundHalfEven, if_neg h1]
    split
    · exact hf1
    · split
      · exact hf
      · exact hf1

theorem le_roundHalfEven {q : ℚ} {n : ℤ} (h : (n : ℚ) ≤ q) : n ≤ roundHalfEven q := by
  have hf : n ≤ ⌊q⌋ := Int.le_floor.mpr h
  unfold roundHalfEven
  split
  · exact hf
  · split
    · omega
    · split
      · exact hf
      · omega

theorem round1_intCast (n : ℤ) : round1 (n : ℚ) = (n : ℚ) := by
  unfold round1
  rw [show (10 : ℚ) * (n : ℚ) = ((10 * n : ℤ) : ℚ) by push_cast; ring,
    roundHalfEven_intCast]
  push_cast
  ring

theorem round1_le {q : ℚ} {n : ℤ} (h : q ≤ (n : ℚ)) : round1 q ≤ (n : ℚ) := by
  unfold round1
  have h10 : (10 : ℚ) * q ≤ ((10 * n : ℤ) : ℚ) := by push_cast; linarith
  have := roundHalfEven_le h10
  have hc : ((roundHalfEven (10 * q)) : ℚ) ≤ ((10 * n : ℤ) : ℚ) := by exact_mod_cast this
  push_cast at hc ⊢
  linarith

theorem le_round1 {q : ℚ} {n : ℤ} (h : (n : ℚ) ≤ q) : (n : ℚ) ≤ round1 q := by
  unfold round1
  have h10 : ((10 * n : ℤ) : ℚ) ≤ (10 : ℚ) * q := by push_cast; linarith
  have := le_roundHalfEven h10
  have hc : ((10 * n : ℤ) : ℚ) ≤ ((roundHalfEven (10 * q)) : ℚ) := by exact_mod_cast this
  push_cast at hc ⊢
  linarith

end RoundingLemmas

/-- A control has an evaluation with the given status. -/
def evalStatusIs (m : ℕ → Option Evaluation) (st : EvaluationStatus) (c : Control) : Bool :=
  (m c.id).any (fun e => e.status == st)

/-- Membership in the per-domain `additional_applicable` tally: a non-baseline
control whose evaluation satisfies the applicability rule. -/
def domainAdditionalApplicable (m : ℕ → Option Evaluation) (c : Control) : Bool :=
  !c.is_baseline && (m c.id).any implicitlyApplicable

/-- Membership in the overall `additional_applicable` tally: as the
per-domain one, but the evaluation must additionally not be `not_evaluated`
(such controls are skipped by the overall loop's `continue`). -/
def overallAdditionalApplicable (m : ℕ → Option Evaluation) (c : Control) : Bool :=
  !c.is_baseline &&
    (m c.id).any (fun e => e.status != .not_evaluated && implicitlyApplicable e)

section FoldCounting

theorem foldl_count {σ α : Type} (step : σ → α → σ) (f : σ → ℕ) (p : α → Bool)
    (hstep : ∀ s a, f (step s a) = f s + (if p a then 1 else 0)) :
    ∀ (l : List α) (s : σ), f (l.foldl step s) = f s + l.countP p := by
  intro l
  induction l with
  | nil => intro s; simp
  | cons x xs ih =>
    intro s
    simp only [List.foldl_cons, List.countP_cons, ih, hstep]
    omega

theorem overallStep_fully (m : ℕ → Option Evaluation) (s : OverallStats) (c : Control) :
    (overallStep m s c).fully_applied
      = s.fully_applied + (if evalStatusIs m .fully_applied c then 1 else 0) := by
  rcases c with ⟨cid, dc, hb⟩
  rcases hm : m cid with _ | ⟨ecid, st, app, evc, fb⟩
  · simp [overallStep, evalStatusIs, hm]
  · cases st <;> rcases app with _ | (_ | _) <;> cases hb <;>
      simp [overallStep, evalStatusIs, implicitlyApplicable, hm]

theorem overallStep_partially (m : ℕ → Option Evaluation) (s : OverallStats) (c : Control) :
    (overallStep m s c).partially_applied
      = s.partially_applied + (if evalStatusIs m .partially_applied c then 1 else 0) := by
  rcases c with ⟨cid, dc, hb⟩
  rcases hm : m cid with _ | ⟨ecid, st, app, evc, fb⟩
  · simp [overallStep, evalStatusIs, hm]
  · cases st <;> rcases app with _ | (_ | _) <;> cases hb <;>
      simp [overallStep, evalStatusIs, implicitlyApplicable, hm]

theorem overallStep_low (m : ℕ → Option Evaluation) (s : OverallStats) (c : Control) :
    (overallStep m s c).low_applied
      = s.low_applied + (if evalStatusIs m .low_applied c then 1 else 0) := by
  rcases c with ⟨cid, dc, hb⟩
  rcases hm : m cid with _ | ⟨ecid, st, app, evc, fb⟩
  · simp [overallStep, evalStatusIs, hm]
  · cases st <;> rcases app with _ | (_ | _) <;> cases hb <;>
      simp [overallStep, evalStatusIs, implicitlyApplicable, hm]

theorem overallStep_additional (m : ℕ → Option Evaluation) (s : OverallStats) (c : Control) :
    (overallStep m s c).additional_applicable
      = s.additional_applicable + (if overallAdditionalApplicable m c then 1 else 0) := by
  rcases c with ⟨cid, dc, hb⟩
  rcases hm : m cid with _ | ⟨ecid, st, app, evc, fb⟩
  · simp [overallStep, overallAdditionalApplicable, hm]
  · cases st <;> rcases app with _ | (_ | _) <;> cases hb <;>
      simp [overallStep, overallAdditionalApplicable, implicitlyApplicable, hm]

theorem domainStep_fully (m : ℕ → Option Evaluation) (d : DomainData) (c : Control) :
    (domainStep m d c).fully = d.fully + (if evalStatusIs m .fully_applied c then 1 else 0) := by
  rcases c with ⟨cid, dc, hb⟩
  rcases hm : m cid with _ | ⟨ecid, st, app, evc, fb⟩
  · cases hb <;> simp [domainStep, evalStatusIs, hm]
  · cases st <;> rcases app with _ | (_ | _) <;> cases hb <;>
      simp [domainStep, evalStatusIs, implicitlyApplicable, hm]

theorem domainStep_part (m : ℕ → Option Evaluation) (d : DomainData) (c : Control) :
    (domainStep m d c).part
      = d.part + (if evalStatusIs m .partially_applied c then 1 else 0) := by
  rcases c with ⟨cid, dc, hb⟩
  rcases hm : m cid with _ | ⟨ecid, st, app, evc, fb⟩
  · cases hb <;> simp [domainStep, evalStatusIs, hm]
  · cases st <;> rcases app with _ | (_ | _) <;> cases hb <;>
      simp [domainStep, evalStatusIs, implicitlyApplicable, hm]

theorem domainStep_low (m : ℕ → Option Evaluation) (d : DomainData) (c : Control) :
    (domainStep m d c).low = d.low + (if evalStatusIs m .low_applied c then 1 else 0) := by
  rcases c with ⟨cid, dc, hb⟩
  rcases hm : m cid with _ | ⟨ecid, st, app, evc, fb⟩
  · cases hb <;> simp [domainStep, evalStatusIs, hm]
  · cases st <;> rcases app with _ | (_ | _) <;> cases hb <;>
      simp [domainStep, evalStatusIs, implicitlyApplicable, hm]

theorem domainStep_baseline (m : ℕ → Option Evaluation) (d : DomainData) (c : Control) :
    (domainStep m d c).baseline = d.baseline + (if c.is_baseline then 1 else 0) := by
  rcases c with ⟨cid, dc, hb⟩
  rcases hm : m cid with _ | ⟨ecid, st, app, evc, fb⟩
  · cases hb <;> simp [domainStep, hm]
  · cases st <;> rcases app with _ | (_ | _) <;> cases hb <;>
      simp [domainStep, implicitlyApplicable, hm]

theorem domainStep_additional (m : ℕ → Option Evaluation) (d : DomainData) (c : Control) :
    (domainStep m d c).additional_applicable
      = d.additional_applicable + (if domainAdditionalApplicable m c then 1 else 0) := by
  rcases c with ⟨cid, dc, hb⟩
  rcases hm : m cid with _ | ⟨ecid, st, app, evc, fb⟩
  · cases hb <;> simp [domainStep, domainAdditionalApplicable, hm]
  · cases st <;> rcases app with _ | (_ | _) <;> cases hb <;>
      simp [domainStep, domainAdditionalApplicable, implicitlyApplicable, hm]

theorem overallStats_fully (controls : List Control) (m : ℕ → Option Evaluation) :
    (overallStats controls m).fully_applied
      = controls.countP (evalStatusIs m .fully_applied) := by
  simpa [overallStats] using
    foldl_count (overallStep m) (fun s => s.fully_applied) (evalStatusIs m .fully_applied)
      (overallStep_fully m) controls
      { applicable_count := (controls.filter (·.is_baseline)).length }

theorem overallStats_partially (controls : List Control) (m : ℕ → Option Evaluation) :
    (overallStats controls m).partially_applied
      = controls.countP (evalStatusIs m .partially_applied) := by
  simpa [overallStats] using
    foldl_count (overallStep m) (fun s => s.partially_applied)
      (evalStatusIs m .partially_applied) (overallStep_partially m) controls
      { applicable_count := (controls.filter (·.is_baseline)).length }

theorem overallStats_low (controls : List Control) (m : ℕ → Option Evaluation) :
    (overallStats controls m).low_applied
      = controls.countP (evalStatusIs m .low_applied) := by
  simpa [overallStats] using
    foldl_count (overallStep m) (fun s => s.low_applied) (evalStatusIs m .low_applied)
      (overallStep_low m) controls
      { applicable_count := (controls.filter (·.is_baseline)).length }

theorem overallStats_additional (controls : List Control) (m : ℕ → Option Evaluation) :
    (overallStats controls m).additional_applicable
      = controls.countP (overallAdditionalApplicable m) := by
  simpa [overallStats] using
    foldl_count (overallStep m) (fun s => s.additional_applicable)
      (overallAdditionalApplicable m) (overallStep_additional m) controls
      { applicable_count := (controls.filter (·.is_baseline)).length }

theorem domainData_fully (controls : List Control) (m : ℕ → Option Evaluation) (dc : String) :
    (domainData controls m dc).fully
      = (controls.filter (fun c => c.domain_code = dc)).countP
          (evalStatusIs m .fully_applied) := by
  simpa [domainData] using
    foldl_count (domainStep m) (fun d => d.fully) (evalStatusIs m .fully_applied)
      (domainStep_fully m) (controls.filter (fun c => c.domain_code = dc)) {}

theorem domainData_part (controls : List Control) (m : ℕ → Option Evaluation) (dc : String) :
    (domainData controls m dc).part
      = (controls.filter (fun c => c.domain_code = dc)).countP
          (evalStatusIs m .partially_applied) := by
  simpa [domainData] using
    foldl_count (domainStep m) (fun d => d.part) (evalStatusIs m .partially_applied)
      (domainStep_part m) (controls.filter (fun c => c.domain_code = dc)) {}

theorem domainData_low (controls : List Control) (m : ℕ → Option Evaluation) (dc : String) :
    (domainData controls m dc).low
      = (controls.filter (fun c => c.domain_code = dc)).countP
          (evalStatusIs m .low_applied) := by
  simpa [domainData] using
    foldl_count (domainStep m) (fun d => d.low) (evalStatusIs m .low_applied)
      (domainStep_low m) (controls.filter (fun c => c.domain_code = dc)) {}

theorem domainData_baseline (controls : List Control) (m : ℕ → Option Evaluation)
    (dc : String) :
    (domainData controls m dc).baseline
      = (controls.filter (fun c => c.domain_code = dc)).countP (·.is_baseline) := by
  simpa [domainData] using
    foldl_count (domainStep m) (fun d => d.baseline) (·.is_baseline)
      (domainStep_baseline m) (controls.filter (fun c => c.domain_code = dc)) {}

theorem domainData_additional (controls : List Control) (m : ℕ → Option Evaluation)
    (dc : String) :
    (domainData controls m dc).additional_applicable
      = (controls.filter (fun c => c.domain_code = dc)).countP
          (domainAdditionalApplicable m) := by
  simpa [domainData] using
    foldl_count (domainStep m) (fun d => d.additional_applicable)
      (domainAdditionalApplicable m) (domainStep_additional m)
      (controls.filter (fun c => c.domain_code = dc)) {}

end FoldCounting

theorem perm_any {α : Type} {l1 l2 : List α} (p : α → Bool) (h : l1.Perm l2) :
    l1.any p = l2.any p := by
  rcases ha : l1.any p with _ | _ <;> rcases hb : l2.any p with _ | _ <;> try rfl
  · rw [List.any_eq_true] at hb
    rw [List.any_eq_false] at ha
    obtain ⟨x, hx, hpx⟩ := hb
    exact absurd hpx (by simpa using ha x (h.mem_iff.mpr hx))
  · rw [List.any_eq_true] at ha
    rw [List.any_eq_false] at hb
    obtain ⟨x, hx, hpx⟩ := ha
    exact absurd hpx (by simpa using hb x (h.mem_iff.mp hx))

theorem publicTotalScore_eq (orgs : List (List Evaluation)) :
    publicTotalScore orgs
      = ((orgs.filter (fun evaluations => !evaluations.isEmpty)).map orgScore).sum := by
  suffices h : ∀ (l : List (List Evaluation)) (acc : ℚ),
      l.foldl (fun acc evaluations =>
          if evaluations = [] then acc else acc + orgScore evaluations) acc
        = acc + ((l.filter (fun evaluations => !evaluations.isEmpty)).map orgScore).sum by
    simpa [publicTotalScore] using h orgs 0
  intro l
  induction l with
  | nil => intro acc; simp
  | cons x xs ih =>
    intro acc
    by_cases hx : x = []
    · subst hx
      simp [ih]
    · have hne : (!x.isEmpty) = true := by
        simp [List.isEmpty_iff, hx]
      simp only [List.foldl_cons, if_neg hx, ih, List.filter_cons, hne, if_pos,
        List.map_cons, List.sum_cons]
      ring

theorem count_orgs_fold (bids : List ℕ) (orgs : List (List Evaluation)) :
    orgs.foldl (fun acc evaluations =>
        if evaluations = [] then acc
        else if has_additional bids evaluations then acc + 1 else acc) 0
      = orgs.countP (has_additional bids) := by
  have hstep : ∀ (s : ℕ) (evaluations : List Evaluation),
      id (if evaluations = [] then s
          else if has_additional bids evaluations then s + 1 else s)
        = id s + (if has_additional bids evaluations then 1 else 0) := by
    intro s evaluations
    by_cases hev : evaluations = []
    · subst hev; simp [has_additional]
    · by_cases hha : has_additional bids evaluations <;> simp [hev, hha]
  simpa using foldl_count _ id (has_additional bids) hstep orgs 0

theorem additional_control_orgs_eq (controls : List Control)
    (orgs : List (List Evaluation)) :
    additional_control_orgs controls orgs
      = orgs.countP (has_additional ((controls.filter (·.is_baseline)).map (·.id))) := by
  simpa [additional_control_orgs] using
    count_orgs_fold ((controls.filter (·.is_baseline)).map (·.id)) orgs

/-- C1: for every call of `calculate_score` with arguments
`(fully, partial, low, total)`, if `total > 0` the result equals
`round((fully + 0.5*partial + 0.25*low) / total * 100, 1)`, and if
`total = 0` the result is `0.0`; in particular
`calculate_score 0 0 0 0 = 0.0` with no division by zero. -/
theorem calculate_score_matches_spec (fully part low total : ℕ) :
    (0 < total → calculate_score fully part low total = spec_score_formula fully part low total)
    ∧ (total = 0 → calculate_score fully part low total = 0)
    ∧ calculate_score 0 0 0 0 = 0 := by
  refine ⟨fun h => ?_, fun h => ?_, by simp [calculate_score]⟩
  · unfold calculate_score spec_score_formula
    rw [if_neg (by omega)]
    norm_num
  · subst h
    simp [calculate_score]

/-- Witness for C1 at `(2, 1, 0, 4)` and at a zero denominator. -/
theorem calculate_score_matches_spec_witness :
    (0 < 4 ∧ calculate_score 2 1 0 4 = spec_score_formula 2 1 0 4)
    ∧ ((0 : ℕ) = 0 ∧ calculate_score 1 0 0 0 = 0) :=
  ⟨⟨by decide, (calculate_score_matches_spec 2 1 0 4).1 (by decide)⟩,
   ⟨rfl, (calculate_score_matches_spec 1 0 0 0).2.1 rfl⟩⟩

/-- C4 counterexample: the claim quantifies over all natural-number
arguments with `total > 0`, but `calculate_score 2 0 0 1 = 200.0`, which is
outside `[0, 100]`: the bound needs `fully + partial + low ≤ total`. -/
theorem score_range_counterexample :
    calculate_score 2 0 0 1 = 200 ∧ ¬calculate_score 2 0 0 1 ≤ 100 := by
  have h : calculate_score 2 0 0 1 = 200 := by
    unfold calculate_score
    norm_num
    rw [show (200 : ℚ) = ((200 : ℤ) : ℚ) by norm_num, round1_intCast]
  exact ⟨h, by rw [h]; norm_num⟩

/-- C4 (amended): for all `(fully, partial, low, total)` with `total > 0`
and `fully + partial + low ≤ total`, `calculate_score` returns
`round((fully + 0.5*partial + 0.25*low)/total*100, 1)` and the result lies
in `[0, 100]`. -/
theorem score_in_range (fully part low total : ℕ) (hpos : 0 < total)
    (hsum : fully + part + low ≤ total) :
    calculate_score fully part low total = spec_score_formula fully part low total
    ∧ 0 ≤ calculate_score fully part low total
    ∧ calculate_score fully part low total ≤ 100 := by
  have htpos : (0 : ℚ) < (total : ℚ) := by exact_mod_cast hpos
  unfold calculate_score spec_score_formula
  rw [if_neg (by omega)]
  refine ⟨by norm_num, ?_, ?_⟩
  · have h0 : ((0 : ℤ) : ℚ)
        ≤ ((fully : ℚ) + (1/2 : ℚ) * part + (1/4 : ℚ) * low) / total * 100 := by
      push_cast
      positivity
    have := le_round1 h0
    simpa using this
  · have hcast : ((fully : ℚ) + (part : ℚ) + (low : ℚ)) ≤ (total : ℚ) := by
      exact_mod_cast hsum
    have hp : (0 : ℚ) ≤ (part : ℚ) := Nat.cast_nonneg part
    have hl : (0 : ℚ) ≤ (low : ℚ) := Nat.cast_nonneg low
    have hnum : ((fully : ℚ) + (1/2 : ℚ) * part + (1/4 : ℚ) * low) ≤ (total : ℚ) := by
      linarith
    have hq : ((fully : ℚ) + (1/2 : ℚ) * part + (1/4 : ℚ) * low) / total * 100
        ≤ ((100 : ℤ) : ℚ) := by
      rw [div_mul_eq_mul_div, div_le_iff₀ htpos]
      push_cast
      nlinarith
    have := round1_le hq
    simpa using this

/-- Witness for C4 (amended) at `(2, 1, 0, 4)`. -/
theorem score_in_range_witness :
    (0 < 4 ∧ 2 + 1 + 0 ≤ 4)
    ∧ (calculate_score 2 1 0 4 = spec_score_formula 2 1 0 4
       ∧ 0 ≤ calculate_score 2 1 0 4 ∧ calculate_score 2 1 0 4 ≤ 100) :=
  ⟨⟨by decide, by decide⟩, score_in_range 2 1 0 4 (by decide) (by decide)⟩

/-- C2: in the dashboard aggregation, every domain's score is
`calculate_score` of the domain's fully/partially/low counts over the
effective denominator
`baseline_count_in_domain + max(additional_applicable_in_domain, tier_multiplier)`,
and the overall score is `calculate_score` of the organization-wide counts
over `baseline_count + max(additional_applicable_total, domain_count * tier_multiplier)`. -/
theorem dashboard_effective_denominators (controls : List Control)
    (m : ℕ → Option Evaluation) (additional_multiplier : ℕ) (dc : String) :
    domainScore controls m additional_multiplier dc
      = calculate_score
          ((controls.filter (fun c => c.domain_code = dc)).countP (evalStatusIs m .fully_applied))
          ((controls.filter (fun c => c.domain_code = dc)).countP
            (evalStatusIs m .partially_applied))
          ((controls.filter (fun c => c.domain_code = dc)).countP (evalStatusIs m .low_applied))
          (((controls.filter (fun c => c.domain_code = dc)).countP (·.is_baseline))
            + max ((controls.filter (fun c => c.domain_code = dc)).countP
                (domainAdditionalApplicable m))
              additional_multiplier)
    ∧ overallScore controls m additional_multiplier
      = calculate_score
          (controls.countP (evalStatusIs m .fully_applied))
          (controls.countP (evalStatusIs m .partially_applied))
          (controls.countP (evalStatusIs m .low_applied))
          ((controls.countP (·.is_baseline))
            + max (controls.countP (overallAdditionalApplicable m))
              (domainCount controls * additional_multiplier)) := by
  constructor
  · simp only [domainScore]
    rw [domainData_fully, domainData_part, domainData_low, domainData_baseline,
      domainData_additional]
  · simp only [overallScore]
    rw [overallStats_fully, overallStats_partially, overallStats_low, overallStats_additional,
      show (controls.filter (·.is_baseline)).length = controls.countP (·.is_baseline) from
        (List.countP_eq_length_filter _ _).symm]

/-- C3 counterexample: on a non-baseline control, an evaluation with
`is_applicable = True` and `status = not_evaluated` satisfies the claim's
applicability rule, yet the overall tally counts it as 0 applicable
additional controls (the overall loop `continue`-skips `not_evaluated`
evaluations before the applicability check), while the per-domain tally
counts it as 1 — so the claimed rule does not hold for the overall tally. -/
theorem applicability_overall_counterexample :
    implicitlyApplicable ⟨1, .not_evaluated, some true, 0, none⟩ = true
    ∧ (overallStats [⟨1, "AM", false⟩]
        (fun i => if i = 1 then some ⟨1, .not_evaluated, some true, 0, none⟩
                  else none)).additional_applicable = 0
    ∧ (domainData [⟨1, "AM", false⟩]
        (fun i => if i = 1 then some ⟨1, .not_evaluated, some true, 0, none⟩ else none)
        "AM").additional_applicable = 1 := by
  refine ⟨rfl, by decide, by decide⟩

/-- C3 (amended): in the per-domain tally a non-baseline control counts as
applicable iff it has an Evaluation satisfying the rule
`is_applicable = true OR status ∈ {fully, partially, low}_applied`; in the
overall tally it counts iff the rule holds AND the status is not
`not_evaluated`.  An evaluation with `is_applicable = None` and
`status = fully_applied` on a non-baseline control counts in both tallies. -/
theorem applicability_tallies (controls : List Control) (m : ℕ → Option Evaluation)
    (dc : String) :
    (domainData controls m dc).additional_applicable
      = (controls.filter (fun c => c.domain_code = dc)).countP (domainAdditionalApplicable m)
    ∧ (overallStats controls m).additional_applicable
      = controls.countP (overallAdditionalApplicable m)
    ∧ ∀ (c : Control) (e : Evaluation), c.is_baseline = false → e.is_applicable = none →
        e.status = .fully_applied →
        domainAdditionalApplicable (fun _ => some e) c = true
        ∧ overallAdditionalApplicable (fun _ => some e) c = true := by
  refine ⟨domainData_additional controls m dc, overallStats_additional controls m, ?_⟩
  intro c e hb ha hs
  constructor <;>
    simp [domainAdditionalApplicable, overallAdditionalApplicable, implicitlyApplicable,
      hb, ha, hs]

/-- Witness for C3 (amended): the implicit-applicability instance at a
concrete non-baseline control and a `(None, fully_applied)` evaluation. -/
theorem applicability_tallies_witness :
    ((⟨1, "AM", false⟩ : Control).is_baseline = false
      ∧ (⟨1, .fully_applied, none, 0, none⟩ : Evaluation).is_applicable = none
      ∧ (⟨1, .fully_applied, none, 0, none⟩ : Evaluation).status = .fully_applied)
    ∧ (domainAdditionalApplicable
          (fun _ => some ⟨1, .fully_applied, none, 0, none⟩) ⟨1, "AM", false⟩ = true
       ∧ overallAdditionalApplicable
          (fun _ => some ⟨1, .fully_applied, none, 0, none⟩) ⟨1, "AM", false⟩ = true) :=
  ⟨⟨rfl, rfl, rfl⟩,
   (applicability_tallies [] (fun _ => none) "").2.2
     ⟨1, "AM", false⟩ ⟨1, .fully_applied, none, 0, none⟩ rfl rfl rfl⟩

/-- C5: for every BIA process and weight configuration, the criticality
score equals `1.25 * Σ(impact_i * weight_i)` over the five dimensions,
floor-truncated to an integer and clamped to `[0, 100]`; with all impacts 4
and all weights 4 the score is exactly 100, and with all impacts 0 it is 0
for any weights. -/
theorem criticality_formula (process : BIAProcess) (settings : OrganizationSettings) :
    calculate_criticality process settings = spec_criticality process settings
    ∧ calculate_criticality ⟨4, 4, 4, 4, 4, []⟩ ⟨4, 4, 4, 4, 4⟩ = 100
    ∧ ∀ (s' : OrganizationSettings) (assets : List InformationAsset),
        calculate_criticality ⟨0, 0, 0, 0, 0, assets⟩ s' = 0 := by
  have key : ∀ S : ℕ,
      truncQ (min ((5/4 : ℚ) * (S : ℚ)) 100) = max 0 (min 100 ⌊(5/4 : ℚ) * (S : ℚ)⌋) := by
    intro S
    have hnn : (0 : ℚ) ≤ (5/4 : ℚ) * (S : ℚ) := by positivity
    have h100 : ⌊(100 : ℚ)⌋ = 100 := by norm_num
    rcases le_total ((5/4 : ℚ) * (S : ℚ)) 100 with h | h
    · rw [min_eq_left h, truncQ, if_neg (not_lt.mpr hnn)]
      have hfl : ⌊(5/4 : ℚ) * (S : ℚ)⌋ ≤ 100 := by
        have := Int.floor_le_floor h
        rwa [h100] at this
      have hfl0 : 0 ≤ ⌊(5/4 : ℚ) * (S : ℚ)⌋ := Int.floor_nonneg.mpr hnn
      rw [min_eq_right hfl, max_eq_right hfl0]
    · rw [min_eq_right h, truncQ, if_neg (by norm_num)]
      have hfx : 100 ≤ ⌊(5/4 : ℚ) * (S : ℚ)⌋ := by
        rw [← h100]
        exact Int.floor_le_floor h
      rw [h100, min_eq_left hfx, max_eq_right (by omega)]
  refine ⟨?_, ?_, ?_⟩
  · have h54 : (1.25 : ℚ) = (5/4 : ℚ) := by norm_num
    simp only [calculate_criticality, spec_criticality, h54]
    exact key _
  · simp only [calculate_criticality]
    norm_num [truncQ]
  · intro s' assets
    simp only [calculate_criticality]
    norm_num [truncQ]

/-- C6: the resolved BIA tier is High if any asset has `security_level`
High, else Medium if any has Medium, else Low, independently of asset
ordering; the additional-controls multiplier is 2/1/0 for High/Medium/Low;
and with zero BIA processes the resolution is tier Low, multiplier 0,
`is_assessed = false`. -/
theorem bia_tier_resolution (ps qs : List BIAProcess)
    (h : (orgAssets ps).Perm (orgAssets qs)) :
    ((resolveBia ps).1 = (resolveBia qs).1 ∧ (resolveBia ps).2.1 = (resolveBia qs).2.1)
    ∧ (resolveBia ps).1
        = (if (orgAssets ps).any (fun a => a.security_level == "High") then "High"
           else if (orgAssets ps).any (fun a => a.security_level == "Medium") then "Medium"
           else "Low")
    ∧ (resolveBia ps).2.1
        = (if (resolveBia ps).1 = "High" then 2
           else if (resolveBia ps).1 = "Medium" then 1 else 0)
    ∧ resolveBia [] = ("Low", 0, false) := by
  have hh := perm_any (fun a => a.security_level == "High") h
  have hm := perm_any (fun a => a.security_level == "Medium") h
  refine ⟨?_, ?_, ?_, by decide⟩
  · by_cases h1 : (orgAssets ps).any (fun a => a.security_level == "High") <;>
      by_cases h2 : (orgAssets ps).any (fun a => a.security_level == "Medium") <;>
      simp [resolveBia, h1, h2, ← hh, ← hm]
  · by_cases h1 : (orgAssets ps).any (fun a => a.security_level == "High") <;>
      by_cases h2 : (orgAssets ps).any (fun a => a.security_level == "Medium") <;>
      simp [resolveBia, h1, h2]
  · by_cases h1 : (orgAssets ps).any (fun a => a.security_level == "High") <;>
      by_cases h2 : (orgAssets ps).any (fun a => a.security_level == "Medium") <;>
      simp [resolveBia, h1, h2]

/-- Witness for C6: one High-asset process and one Low-asset process, in the
two orders. -/
theorem bia_tier_resolution_witness :
    (orgAssets [⟨0, 0, 0, 0, 0, [⟨0, 0, 0, "High"⟩]⟩, ⟨0, 0, 0, 0, 0, [⟨0, 0, 0, "Low"⟩]⟩]).Perm
      (orgAssets [⟨0, 0, 0, 0, 0, [⟨0, 0, 0, "Low"⟩]⟩, ⟨0, 0, 0, 0, 0, [⟨0, 0, 0, "High"⟩]⟩])
    ∧ ((resolveBia [⟨0, 0, 0, 0, 0, [⟨0, 0, 0, "High"⟩]⟩, ⟨0, 0, 0, 0, 0, [⟨0, 0, 0, "Low"⟩]⟩]).1
        = (resolveBia [⟨0, 0, 0, 0, 0, [⟨0, 0, 0, "Low"⟩]⟩,
            ⟨0, 0, 0, 0, 0, [⟨0, 0, 0, "High"⟩]⟩]).1) :=
  ⟨by decide,
   ((bia_tier_resolution
      [⟨0, 0, 0, 0, 0, [⟨0, 0, 0, "High"⟩]⟩, ⟨0, 0, 0, 0, 0, [⟨0, 0, 0, "Low"⟩]⟩]
      [⟨0, 0, 0, 0, 0, [⟨0, 0, 0, "Low"⟩]⟩, ⟨0, 0, 0, 0, 0, [⟨0, 0, 0, "High"⟩]⟩]
      (by decide)).1).1⟩

/-- C7: the asset classifier returns High when the maximum of the three
ratings is at least 3, Medium when it equals 2, and Low otherwise; it is
total and deterministic over all ratings, and invariant under permuting the
three ratings; `classify(3,0,0) = High`, `classify(2,2,0) = Medium`,
`classify(1,1,1) = Low`, `classify(0,3,0) = High`. -/
theorem security_level_max_rule (c i a : ℕ) (sl sl' : String) :
    calculate_security_level ⟨c, i, a, sl⟩
      = (if 3 ≤ max c (max i a) then "High"
         else if max c (max i a) = 2 then "Medium" else "Low")
    ∧ calculate_security_level ⟨c, i, a, sl⟩ = calculate_security_level ⟨i, c, a, sl'⟩
    ∧ calculate_security_level ⟨c, i, a, sl⟩ = calculate_security_level ⟨i, a, c, sl'⟩
    ∧ calculate_security_level ⟨3, 0, 0, ""⟩ = "High"
    ∧ calculate_security_level ⟨2, 2, 0, ""⟩ = "Medium"
    ∧ calculate_security_level ⟨1, 1, 1, ""⟩ = "Low"
    ∧ calculate_security_level ⟨0, 3, 0, ""⟩ = "High" := by
  refine ⟨rfl, ?_, ?_, by decide, by decide, by decide, by decide⟩
  · simp only [calculate_security_level]
    rw [show max c (max i a) = max i (max c a) from max_left_comm c i a]
  · simp only [calculate_security_level]
    rw [show max c (max i a) = max i (max a c) by rw [max_comm a c, max_left_comm]]

/-- C8 counterexample: with one organization scoring 100 and one
organization with zero evaluations, `get_public_stats` reports a platform
average of 50 (it divides the summed scores by the total organization
count), while the mean over organizations with at least one evaluation is
100 — so zero-evaluation organizations do enter the mean, as zeros. -/
theorem platform_average_counterexample :
    average_compliance_score [[⟨1, .fully_applied, none, 0, none⟩], []] = 50
    ∧ spec_mean_score [[⟨1, .fully_applied, none, 0, none⟩], []] = 100
    ∧ (50 : ℚ) ≠ 100 := by
  have hscore : orgScore [⟨1, .fully_applied, none, 0, none⟩] = 100 := by
    have h1 : ([⟨1, .fully_applied, none, 0, none⟩] : List Evaluation).countP
        (fun e => e.status == .fully_applied) = 1 := by decide
    have h2 : ([⟨1, .fully_applied, none, 0, none⟩] : List Evaluation).countP
        (fun e => e.status == .partially_applied) = 0 := by decide
    have h3 : ([⟨1, .fully_applied, none, 0, none⟩] : List Evaluation).countP
        (fun e => e.status == .low_applied) = 0 := by decide
    simp only [orgScore, h1, h2, h3, List.length_cons, List.length_nil, calculate_score]
    norm_num
    rw [show (100 : ℚ) = ((100 : ℤ) : ℚ) by norm_num, round1_intCast]
  refine ⟨?_, ?_, by norm_num⟩
  · simp only [average_compliance_score, publicTotalScore, List.foldl_cons, List.foldl_nil,
      List.length_cons, List.length_nil]
    norm_num [hscore]
    rw [show (50 : ℚ) = ((50 : ℤ) : ℚ) by norm_num, round1_intCast]
  · simp only [spec_mean_score, List.filter_cons, List.filter_nil]
    norm_num [hscore]

/-- C8 (amended): the platform average equals the sum of per-organization
scores over the organizations with at least one evaluation, divided by the
TOTAL number of organizations (zero-evaluation organizations enter the mean
as zeros), rounded to one decimal; 0 when there are no organizations. -/
theorem platform_average_denominator (orgs : List (List Evaluation)) :
    average_compliance_score orgs
      = (if orgs.length = 0 then 0
         else round1
           ((((orgs.filter (fun evaluations => !evaluations.isEmpty)).map orgScore).sum)
             / (orgs.length : ℚ))) := by
  unfold average_compliance_score
  rw [publicTotalScore_eq]

/-- C9 counterexample: an organization whose only evaluation is
`is_applicable = None`, `status = fully_applied` on a non-baseline control
has an applicable additional control under the stated rule, but
`get_public_stats` does not count it: its `has_additional` test looks only
at the explicit `is_applicable` flag, ignoring the status-implies-
applicability rule. -/
theorem additional_orgs_counterexample :
    additional_control_orgs [⟨1, "AM", false⟩] [[⟨1, .fully_applied, none, 0, none⟩]] = 0
    ∧ spec_additional_orgs [⟨1, "AM", false⟩] [[⟨1, .fully_applied, none, 0, none⟩]] = 1 := by
  decide

/-- C9 (amended): `organizations_with_additional_controls` counts exactly
the organizations having at least one evaluation whose explicit
`is_applicable` flag is `True` on a control outside the baseline id list;
the applied statuses play no role in this counter. -/
theorem additional_orgs_explicit_flag (controls : List Control)
    (orgs : List (List Evaluation)) :
    additional_control_orgs controls orgs
      = orgs.countP (has_additional ((controls.filter (·.is_baseline)).map (·.id))) :=
  additional_control_orgs_eq controls orgs

/-- C10: when `update_evaluation` runs with an omitted `is_applicable`
(None) on a non-baseline control, the stored flag becomes `False` for
status `not_evaluated` and `True` for every other status (including
`not_applied`); an explicit flag always wins; for baseline controls an
omitted flag leaves the stored value unchanged (None on a freshly created
row).  The status is always overwritten with the requested one. -/
theorem update_evaluation_applicability (control : Control) (existing : Option Evaluation)
    (update_data : EvaluationUpdate) :
    (update_evaluation control existing update_data).is_applicable
      = (match update_data.is_applicable with
         | some b => some b
         | none =>
           if control.is_baseline then
             (match existing with
              | some e => e.is_applicable
              | none => none)
           else if update_data.status = .not_evaluated then some false else some true)
    ∧ (update_evaluation control existing update_data).status = update_data.status := by
  rcases update_data with ⟨st, fb, app⟩
  rcases control with ⟨cid, dc, hb⟩
  rcases app with _ | b
  · rcases existing with _ | e <;> cases hb <;>
      by_cases hst : st = .not_evaluated <;>
      simp [update_evaluation, hst]
  · rcases existing with _ | e <;> cases hb <;> simp [update_evaluation]

end ComplianceVault
